import Mathlib

/-!
Verification of the OpenAPI discovery agent (`agent_discovery.py`, `agent_api.py`).

The development shallowly embeds the decision engine: the Python text
manipulations (`str.split`, `in`, `str.strip`, `str.lower`, slicing) are
modelled as executable functions on `List Char`; `json.loads` is modelled by a
strict recursive-descent JSON parser over the same character lists; network
calls and the reasoning-service call are modelled by their outcomes
(`Except` values) since the code only branches on those outcomes.
-/

/-- Characters stripped by Python `str.strip()` (ASCII whitespace). -/
def pyWs (c : Char) : Bool :=
  c == ' ' || c == '\t' || c == '\n' || c == '\r' || c == '\x0b' || c == '\x0c'

/-- Model of Python `str.strip()`: drop leading and trailing whitespace. -/
def trimL (s : List Char) : List Char :=
  ((s.dropWhile pyWs).reverse.dropWhile pyWs).reverse

/-- `startsWithL pat s` is true when `s` begins with `pat`. -/
def startsWithL : List Char → List Char → Bool
  | [], _ => true
  | _ :: _, [] => false
  | p :: ps, c :: cs => p == c && startsWithL ps cs

/-- First occurrence of `sep` inside `s`: returns the part strictly before the
occurrence and the part strictly after it, scanning left to right. -/
def firstOcc (sep : List Char) : List Char → Option (List Char × List Char)
  | [] => if startsWithL sep [] then some ([], []) else none
  | c :: rest =>
    if startsWithL sep (c :: rest) then some ([], (c :: rest).drop sep.length)
    else (firstOcc sep rest).map fun p => (c :: p.1, p.2)

/-- Model of the Python membership test `sep in s` (for nonempty `sep`). -/
def containsL (sep s : List Char) : Bool := (firstOcc sep s).isSome

/-- Fueled worker for `pySplit`. -/
def pySplitFuel (sep : List Char) : Nat → List Char → List (List Char)
  | 0, s => [s]
  | fuel + 1, s =>
    match firstOcc sep s with
    | none => [s]
    | some (a, b) => a :: pySplitFuel sep fuel b

/-- Model of Python `s.split(sep)` for a nonempty separator: the pieces of `s`
between consecutive occurrences of `sep`. -/
def pySplit (sep s : List Char) : List (List Char) := pySplitFuel sep (s.length + 1) s

/-- The triple-backtick fence delimiter. -/
def tb : List Char := "```".data

/-- The fence delimiter of a JSON code block. -/
def tbjson : List Char := "```json".data

/-- The newline character. -/
def nl : Char := '\n'

/-- Model of lines 166-169 of `agent_discovery.py`: strip an enclosing fenced
code block from the reasoning-service response before parsing.
`if "```json" in t: t = t.split("```json")[1].split("```")[0]`
`elif "```" in t: t = t.split("```")[1].split("```")[0]`. -/
def stripFencesL (t : List Char) : List Char :=
  match containsL tbjson t, containsL tb t with
  | true, _ => (pySplit tb ((pySplit tbjson t).getD 1 [])).getD 0 []
  | false, true => (pySplit tb ((pySplit tb t).getD 1 [])).getD 0 []
  | false, false => t

/-- JSON values, as produced by `json.loads`.  Python `None` is `Json.null`;
JSON objects keep their key/value pairs in source order (duplicate keys are
resolved by `lookupPy`, which takes the last occurrence, as a Python dict
does).  Numbers are modelled as integers; the parser rejects (rather than
misparses) float literals, which none of the analysed behaviour depends on. -/
inductive Json where
  | null
  | bool (b : Bool)
  | num (n : Int)
  | str (s : String)
  | arr (xs : List Json)
  | obj (fields : List (String × Json))

/-- Lookup in a parsed JSON object with Python-dict semantics: when a key is
repeated, the last occurrence wins. -/
def lookupPy (fs : List (String × Json)) (k : String) : Option Json :=
  match fs with
  | [] => none
  | (k', v) :: rest =>
    match lookupPy rest k with
    | some w => some w
    | none => if k' == k then some v else none

/-- Model of Python `dict.get(key, default)` on a parsed JSON object. -/
def getPy (fs : List (String × Json)) (k : String) (dflt : Json) : Json :=
  (lookupPy fs k).getD dflt

/-- Whitespace accepted between JSON tokens by `json.loads`. -/
def jsonWs (c : Char) : Bool := c == ' ' || c == '\t' || c == '\n' || c == '\r'

/-- Skip inter-token whitespace. -/
def skipWs (s : List Char) : List Char := s.dropWhile jsonWs

/-- Decode one JSON string escape (after a backslash).  `\uXXXX` escapes are
rejected rather than decoded; no analysed input uses them. -/
def unescapeChar : Char → Option Char
  | '\\' => some '\\'
  | '"' => some '"'
  | 'n' => some (Char.ofNat 10)
  | 't' => some (Char.ofNat 9)
  | 'r' => some (Char.ofNat 13)
  | 'b' => some (Char.ofNat 8)
  | 'f' => some (Char.ofNat 12)
  | '/' => some '/'
  | _ => none

/-- Parse the body of a JSON string literal (the opening quote already
consumed), returning the decoded characters and the rest of the input.
Strict mode: raw control characters are rejected, as `json.loads` does. -/
def parseStrChars : List Char → Option (List Char × List Char)
  | [] => none
  | c :: rest =>
    if c == '"' then some ([], rest)
    else if c == '\\' then
      match rest with
      | [] => none
      | e :: rest2 =>
        match unescapeChar e with
        | none => none
        | some d =>
          match parseStrChars rest2 with
          | none => none
          | some (cs, rem) => some (d :: cs, rem)
    else if c.toNat < 32 then none
    else
      match parseStrChars rest with
      | none => none
      | some (cs, rem) => some (c :: cs, rem)

/-- Split a leading run of decimal digits off the input. -/
def spanDigits : List Char → List Char × List Char
  | [] => ([], [])
  | c :: r =>
    if c.isDigit then
      let p := spanDigits r
      (c :: p.1, p.2)
    else ([], c :: r)

/-- Numeric value of a digit run. -/
def digitsToNat (ds : List Char) : Nat := ds.foldl (fun n c => n * 10 + (c.toNat - 48)) 0

/-- Parse a JSON integer literal.  Leading zeros are rejected as `json.loads`
does; a following `.`, `e` or `E` (a float literal) makes the parse fail
rather than misparse. -/
def parseNum (s : List Char) : Option (Json × List Char) :=
  let p := match s with
    | c :: r => if c == '-' then (true, r) else (false, s)
    | [] => (false, s)
  let q := spanDigits p.2
  if q.1.isEmpty then none
  else if 1 < q.1.length && q.1.headD '0' == '0' then none
  else
    let bad := match q.2 with
      | c :: _ => c == '.' || c == 'e' || c == 'E'
      | [] => false
    if bad then none
    else some (Json.num (if p.1 then -(digitsToNat q.1 : Int) else (digitsToNat q.1 : Int)), q.2)

mutual

/-- Parse one JSON value (leading whitespace allowed). -/
def parseVal : Nat → List Char → Option (Json × List Char)
  | 0, _ => none
  | fuel + 1, s =>
    match skipWs s with
    | [] => none
    | c :: rest =>
      if c == '"' then
        match parseStrChars rest with
        | none => none
        | some (cs, rem) => some (Json.str cs.asString, rem)
      else if c == '\x7b' then parseObjRest fuel rest
      else if c == '[' then parseArrRest fuel rest
      else if c == 't' then
        if startsWithL "rue".data rest then some (Json.bool true, rest.drop 3) else none
      else if c == 'f' then
        if startsWithL "alse".data rest then some (Json.bool false, rest.drop 4) else none
      else if c == 'n' then
        if startsWithL "ull".data rest then some (Json.null, rest.drop 3) else none
      else if c == '-' || c.isDigit then parseNum (c :: rest)
      else none

/-- Parse the remainder of a JSON object (the opening brace already consumed). -/
def parseObjRest : Nat → List Char → Option (Json × List Char)
  | 0, _ => none
  | fuel + 1, s =>
    match skipWs s with
    | '\x7d' :: r => some (Json.obj [], r)
    | s' =>
      match parseMembers fuel s' with
      | none => none
      | some (ms, rem) => some (Json.obj ms, rem)

/-- Parse one or more key-value members followed by the closing brace. -/
def parseMembers : Nat → List Char → Option (List (String × Json) × List Char)
  | 0, _ => none
  | fuel + 1, s =>
    match skipWs s with
    | '"' :: rest =>
      match parseStrChars rest with
      | none => none
      | some (k, rem) =>
        match skipWs rem with
        | ':' :: rem2 =>
          match parseVal fuel rem2 with
          | none => none
          | some (v, rem3) =>
            match skipWs rem3 with
            | ',' :: rem5 =>
              match parseMembers fuel rem5 with
              | none => none
              | some (ms, rem6) => some ((k.asString, v) :: ms, rem6)
            | '\x7d' :: rem5 => some ([(k.asString, v)], rem5)
            | _ => none
        | _ => none
    | _ => none

/-- Parse the remainder of a JSON array (the `[` already consumed). -/
def parseArrRest : Nat → List Char → Option (Json × List Char)
  | 0, _ => none
  | fuel + 1, s =>
    match skipWs s with
    | ']' :: r => some (Json.arr [], r)
    | s' =>
      match parseElems fuel s' with
      | none => none
      | some (vs, rem) => some (Json.arr vs, rem)

/-- Parse one or more array elements followed by `]`. -/
def parseElems : Nat → List Char → Option (List Json × List Char)
  | 0, _ => none
  | fuel + 1, s =>
    match parseVal fuel s with
    | none => none
    | some (v, rem) =>
      match skipWs rem with
      | ',' :: rem3 =>
        match parseElems fuel rem3 with
        | none => none
        | some (vs, rem4) => some (v :: vs, rem4)
      | ']' :: rem3 => some ([v], rem3)
      | _ => none

end

/-- Model of `json.loads` on a character list: parse exactly one JSON value,
allowing surrounding whitespace, and fail on trailing garbage.  The fuel
`3 * length + 3` dominates the recursion depth of any input. -/
def pyJsonLoads (s : List Char) : Option Json :=
  match parseVal (3 * s.length + 3) s with
  | none => none
  | some (v, rem) => if (skipWs rem).isEmpty then some v else none

/-- The result record built by `_analyze_with_claude` (the `SpecLocation`
dataclass).  Python is dynamically typed, so every field holds the JSON value
taken from the service response; `Json.null` models Python `None` (the absent
`version`/`github_info`). -/
structure SpecLocation where
  download_url : Json
  version : Json
  format : Json
  versioning_strategy : Json
  github_info : Json
  confidence : Json
  reasoning : Json

/-- Modelled `str(e)` of a `json.JSONDecodeError` raised by `json.loads`. -/
def decodeErrMsg : String := "JSONDecodeError"

/-- Modelled `str(e)` of the `AttributeError` raised when `json.loads` returns
a non-dict and line 174 calls `.get` on it. -/
def notDictErrMsg : String := "AttributeError"

/-- Modelled `str(e)` of the `TypeError` raised on line 175 when the response
field `reasoning` holds a value that cannot be sliced with `[:100]`. -/
def sliceErrMsg : String := "TypeError"

/-- The fallback `SpecLocation` built in the `except` branch (lines 189-197):
empty download URL, no version, `yaml`, `unknown`, no github info, `low`
confidence, and a reasoning string describing the caught exception. -/
def fallbackSpec (err : String) : SpecLocation :=
  { download_url := Json.str ""
    version := Json.null
    format := Json.str "yaml"
    versioning_strategy := Json.str "unknown"
    github_info := Json.null
    confidence := Json.str "low"
    reasoning := Json.str ("Error during analysis: " ++ err) }

/-- Whether a Python value supports slice subscription `v[:100]` (strings and
lists do; `None`, booleans, numbers and dicts raise `TypeError`). -/
def subscriptable : Json → Bool
  | Json.str _ => true
  | Json.arr _ => true
  | _ => false

/-- The `SpecLocation` constructed on lines 177-185 from a parsed response
object: every field is read with `result.get` and its documented default. -/
def specFromResult (fs : List (String × Json)) : SpecLocation :=
  { download_url := getPy fs "download_url" (Json.str "")
    version := getPy fs "version" Json.null
    format := getPy fs "format" (Json.str "yaml")
    versioning_strategy := getPy fs "versioning_strategy" (Json.str "unknown")
    github_info := getPy fs "github_info" Json.null
    confidence := getPy fs "confidence" (Json.str "low")
    reasoning := getPy fs "reasoning" (Json.str "") }

/-- The response-processing pipeline of `_analyze_with_claude` applied to the
raw reasoning-service response text: strip an enclosing fence, `strip()`,
`json.loads`, then build the `SpecLocation`.  The three abnormal branches
model the exceptions caught by the surrounding `try`: parse failure, `.get`
on a non-dict result, and the line-175 logging slice (`result.get` of the
reasoning key, defaulted to the string N/A, then sliced to 100 characters)
applied to an unsliceable value. -/
def analyze_core (text : String) : SpecLocation :=
  match pyJsonLoads (trimL (stripFencesL text.data)) with
  | none => fallbackSpec decodeErrMsg
  | some (Json.obj fs) =>
    match subscriptable (getPy fs "reasoning" (Json.str "N/A")) with
    | true => specFromResult fs
    | false => fallbackSpec sliceErrMsg
  | some _ => fallbackSpec notDictErrMsg

/-- Model of `_analyze_with_claude` (lines 150-197).  The vendor, API name,
documentation URL, page content and hints only shape the prompt sent to the
reasoning service; the returned `SpecLocation` depends solely on the outcome
of that single service call, which is the input of the model: `.error e` is any
exception raised by the call (network error, timeout, missing content block),
`.ok text` is the response text. -/
def analyze_with_claude : Except String String → SpecLocation
  | Except.error e => fallbackSpec e
  | Except.ok text => analyze_core text

/-- Python `s[:n]` on a string. -/
def pyTake (s : String) (n : Nat) : String := String.mk (s.data.take n)

/-- Model of `_fetch_documentation` (lines 81-90).  The input is the outcome
of `requests.get(url, timeout=30)`: `.error e` is any raised exception
(timeout, DNS failure, connection error), `.ok (status, body)` a completed
response.  `response.raise_for_status()` raises exactly for statuses in
400-599; any caught exception yields the empty string, otherwise the body is
truncated to 100000 characters. -/
def fetch_documentation : Except String (Nat × String) → String
  | Except.error _ => ""
  | Except.ok (status, body) =>
    if 400 ≤ status ∧ status < 600 then "" else pyTake body 100000

/-- Marker `"openapi":` scanned for by `verify_spec_url`. -/
def m1 : List Char := "\"openapi\":".data

/-- Marker openapi-colon wrapped in single quotes, scanned for by
`verify_spec_url`; built from character codes to keep the quoting clear. -/
def m2 : List Char := Char.ofNat 39 :: "openapi".data ++ [Char.ofNat 39, ':']

/-- Marker `openapi:` scanned for by `verify_spec_url`. -/
def m3 : List Char := "openapi:".data

/-- Marker `swagger:` scanned for by `verify_spec_url`. -/
def m4 : List Char := "swagger:".data

/-- Lines 212-215: lower-case the fetched body and test the four marker
substrings. -/
def hasOpenapiMarker (body : String) : Bool :=
  let c := body.data.map Char.toLower
  containsL m1 c || containsL m2 c || containsL m3 c || containsL m4 c

/-- Model of `verify_spec_url` (lines 199-226).  `head` is the outcome of
`requests.head(url, timeout=10, allow_redirects=True)` (exception or final
status); `get` is the outcome the full `requests.get(url, timeout=30)` would
have (exception, or status and body) - the code issues it only when the HEAD
status equals 200, never inspects its status, and scans its body for the
markers.  Every exception is caught and becomes `false`. -/
def verify_spec_url (head : Except String Nat) (get : Except String (Nat × String)) : Bool :=
  match head with
  | Except.error _ => false
  | Except.ok status =>
    match status == 200 with
    | true =>
      match get with
      | Except.error _ => false
      | Except.ok (_, body) => hasOpenapiMarker body
    | false => false

/-- The two-marker scan described by claim C9: only `openapi:` and
`swagger:`.  This definition follows the words of claim C9, for comparison with
`hasOpenapiMarker`, which follows the source. -/
def twoMarkerCheck (body : String) : Bool :=
  let c := body.data.map Char.toLower
  containsL m3 c || containsL m4 c

/-- Serialisation of a `SpecLocation` into the `/discover` response body
(lines 70-78 of `agent_api.py`). -/
def spec_location_json (l : SpecLocation) : Json :=
  Json.obj
    [("download_url", l.download_url), ("version", l.version), ("format", l.format),
     ("versioning_strategy", l.versioning_strategy), ("github_info", l.github_info),
     ("confidence", l.confidence), ("reasoning", l.reasoning)]

/-- The required fields checked by the `/discover` handler, in check order. -/
def requiredFields : List String := ["vendor", "api_name", "documentation_url"]

/-- The first required field missing from the request body, following the
loop of the handler (`for field in required: if field not in data`). -/
def firstMissing (fields : List (String × Json)) : Option String :=
  requiredFields.find? fun k => (lookupPy fields k).isNone

/-- Model of the `/discover` handler `discover_spec` (lines 46-83 of
`agent_api.py`).  `fields` is the parsed JSON request body; `agent` is the
outcome the call into the discovery agent would have (`.error e` models an
exception, surfaced as a 500 with the error text).  Returns the HTTP status
and the JSON response body. -/
def discover_spec (fields : List (String × Json)) (agent : Except String SpecLocation) :
    Nat × Json :=
  match firstMissing fields with
  | some f => (400, Json.obj [("error", Json.str ("Missing required field: " ++ f))])
  | none =>
    match agent with
    | Except.error e => (500, Json.obj [("error", Json.str e)])
    | Except.ok loc => (200, spec_location_json loc)

/-! ## Basic facts about `startsWithL` -/

theorem sw_self_app (p r : List Char) : startsWithL p (p ++ r) = true := by
  induction p with
  | nil => rfl
  | cons a ps ih => simp [startsWithL, ih]

theorem sw_of_le (p : List Char) : ∀ x t : List Char, p.length ≤ x.length →
    startsWithL p (x ++ t) = startsWithL p x := by
  induction p with
  | nil => intro x t _; rfl
  | cons a ps ih =>
    intro x t hle
    cases x with
    | nil => simp at hle
    | cons b xs =>
      simp only [List.cons_append, startsWithL, List.append_eq]
      simp only [List.length_cons, Nat.succ_le_succ_iff] at hle
      rw [ih xs t hle]

theorem sw_rev (u : List Char) : ∀ p v : List Char, startsWithL p (u ++ v) = true →
    u.length ≤ p.length → startsWithL u p = true := by
  induction u with
  | nil => intro p v _ _; rfl
  | cons a us ih =>
    intro p v hsw hle
    cases p with
    | nil => simp at hle
    | cons b ps =>
      simp only [List.cons_append, startsWithL, Bool.and_eq_true, beq_iff_eq] at hsw
      simp only [List.length_cons, Nat.succ_le_succ_iff] at hle
      simp only [startsWithL, Bool.and_eq_true, beq_iff_eq]
      exact ⟨hsw.1.symm, ih ps v hsw.2 hle⟩

theorem sw_mem (u : List Char) : ∀ p : List Char, ∀ a : Char, startsWithL u p = true →
    a ∈ u → a ∈ p := by
  induction u with
  | nil => intro p a _ hm; simp at hm
  | cons b us ih =>
    intro p a hsw hm
    cases p with
    | nil => simp [startsWithL] at hsw
    | cons c ps =>
      simp only [startsWithL, Bool.and_eq_true, beq_iff_eq] at hsw
      rcases List.mem_cons.mp hm with h | h
      · exact List.mem_cons.mpr (Or.inl (h.trans hsw.1))
      · exact List.mem_cons.mpr (Or.inr (ih ps a hsw.2 h))

theorem sw_app_char (p x : List Char) (c : Char) (hc : c ∉ p)
    (h : startsWithL p x = false) : startsWithL p (x ++ [c]) = false := by
  cases hsw : startsWithL p (x ++ [c]) with
  | false => rfl
  | true =>
    rcases le_or_lt p.length x.length with hle | hlt
    · rw [sw_of_le p x [c] hle, h] at hsw
      exact hsw.symm
    · have h2 : (x ++ [c]).length ≤ p.length := by simpa using hlt
      exact absurd (sw_mem (x ++ [c]) p c (sw_rev (x ++ [c]) p [] (by simpa using hsw) h2)
        (by simp)) hc

theorem sw_barrier (p y t : List Char) (d : Char) (hd : d ∉ p)
    (h : startsWithL p (y ++ [d]) = false) : startsWithL p ((y ++ [d]) ++ t) = false := by
  cases hsw : startsWithL p ((y ++ [d]) ++ t) with
  | false => rfl
  | true =>
    rcases le_or_lt p.length (y ++ [d]).length with hle | hlt
    · rw [sw_of_le p (y ++ [d]) t hle, h] at hsw
      exact hsw.symm
    · exact absurd (sw_mem (y ++ [d]) p d
        (sw_rev (y ++ [d]) p t hsw (Nat.le_of_lt hlt)) (by simp)) hd

theorem sw_app_left (p : List Char) : ∀ e x : List Char,
    startsWithL (p ++ e) x = true → startsWithL p x = true := by
  induction p with
  | nil => intro e x _; rfl
  | cons a ps ih =>
    intro e x h
    cases x with
    | nil => simp [startsWithL] at h
    | cons b xs =>
      simp only [List.cons_append, startsWithL, Bool.and_eq_true] at h
      simp only [startsWithL, Bool.and_eq_true]
      exact ⟨h.1, ih e xs h.2⟩

/-! ## Basic facts about `firstOcc` and `pySplit` -/

theorem fo_nil (sep : List Char) (h : sep ≠ []) : firstOcc sep [] = none := by
  cases sep with
  | nil => exact absurd rfl h
  | cons a as => rfl

theorem fo_cons_none (sep : List Char) (c : Char) (r : List Char) :
    firstOcc sep (c :: r) = none ↔
      startsWithL sep (c :: r) = false ∧ firstOcc sep r = none := by
  cases hsw : startsWithL sep (c :: r) with
  | true => simp [firstOcc, hsw]
  | false =>
    cases hr : firstOcc sep r with
    | none => simp [firstOcc, hsw, hr]
    | some p => simp [firstOcc, hsw, hr]

theorem fo_cons_of_nsw (sep : List Char) (c : Char) (r : List Char)
    (h : startsWithL sep (c :: r) = false) :
    firstOcc sep (c :: r) = (firstOcc sep r).map fun p => (c :: p.1, p.2) := by
  simp [firstOcc, h]

theorem fo_of_sw (sep s : List Char) (hne : sep ≠ []) (h : startsWithL sep s = true) :
    firstOcc sep s = some ([], s.drop sep.length) := by
  cases s with
  | nil =>
    cases sep with
    | nil => exact absurd rfl hne
    | cons a as => simp [startsWithL] at h
  | cons c r => simp [firstOcc, h]

theorem fo_self_app (sep r : List Char) (hne : sep ≠ []) :
    firstOcc sep (sep ++ r) = some ([], r) := by
  rw [fo_of_sw sep (sep ++ r) hne (sw_self_app sep r)]
  rw [List.drop_left]

theorem fo_mono_ext (sep e : List Char) : ∀ s : List Char, firstOcc sep s = none →
    firstOcc (sep ++ e) s = none := by
  intro s
  induction s with
  | nil =>
    intro h
    cases sep with
    | nil => simp [firstOcc, startsWithL] at h
    | cons a as => exact fo_nil _ (by simp)
  | cons c r ih =>
    intro h
    rcases (fo_cons_none sep c r).mp h with ⟨hsw, hr⟩
    refine (fo_cons_none (sep ++ e) c r).mpr ⟨?_, ih hr⟩
    cases h2 : startsWithL (sep ++ e) (c :: r) with
    | false => rfl
    | true =>
      rw [sw_app_left sep e (c :: r) h2] at hsw
      exact hsw

theorem fo_app_char (sep : List Char) (c : Char) (hne : sep ≠ []) (hc : c ∉ sep) :
    ∀ x : List Char, firstOcc sep x = none → firstOcc sep (x ++ [c]) = none := by
  intro x
  induction x with
  | nil =>
    intro _
    cases sep with
    | nil => exact absurd rfl hne
    | cons a as =>
      refine (fo_cons_none (a :: as) c []).mpr ⟨?_, fo_nil _ (by simp)⟩
      have hca : ¬(a = c) := fun h => hc (by simp [h])
      simp [startsWithL, hca]
  | cons d x' ih =>
    intro h
    rcases (fo_cons_none sep d x').mp h with ⟨hsw, hx'⟩
    refine (fo_cons_none sep d (x' ++ [c])).mpr ⟨?_, ih hx'⟩
    have := sw_app_char sep (d :: x') c hc hsw
    simpa using this

theorem fo_app_blocked (sep t : List Char) (c : Char) (hne : sep ≠ []) (hc : c ∉ sep) :
    ∀ y : List Char, firstOcc sep (y ++ [c]) = none →
      firstOcc sep ((y ++ [c]) ++ t) =
        (firstOcc sep t).map fun p => ((y ++ [c]) ++ p.1, p.2) := by
  intro y
  induction y with
  | nil =>
    intro _
    cases sep with
    | nil => exact absurd rfl hne
    | cons a as =>
      have hca : (a == c) = false := beq_eq_false_iff_ne.mpr fun h => hc (by simp [h])
      have hsw : startsWithL (a :: as) (c :: t) = false := by simp [startsWithL, hca]
      rw [show ([] ++ [c]) ++ t = c :: t from by simp]
      rw [fo_cons_of_nsw (a :: as) c t hsw]
      cases firstOcc (a :: as) t <;> simp
  | cons d y' ih =>
    intro h
    have h' : firstOcc sep (d :: (y' ++ [c])) = none := by simpa using h
    rcases (fo_cons_none sep d (y' ++ [c])).mp h' with ⟨hsw, hy'⟩
    have hsw2 : startsWithL sep (((d :: y') ++ [c]) ++ t) = false :=
      sw_barrier sep (d :: y') t c hc (by simpa using hsw)
    rw [show ((d :: y') ++ [c]) ++ t = d :: ((y' ++ [c]) ++ t) from by simp]
    rw [fo_cons_of_nsw sep d ((y' ++ [c]) ++ t) (by simpa using hsw2)]
    rw [ih hy']
    cases firstOcc sep t <;> simp

theorem psf_none (sep s : List Char) (h : firstOcc sep s = none) :
    ∀ fuel : Nat, pySplitFuel sep fuel s = [s] := by
  intro fuel
  cases fuel with
  | zero => rfl
  | succ n => simp [pySplitFuel, h]

theorem psf_some (sep s a b : List Char) (fuel : Nat) (h : firstOcc sep s = some (a, b)) :
    pySplitFuel sep (fuel + 1) s = a :: pySplitFuel sep fuel b := by
  simp [pySplitFuel, h]

theorem ps_two (sep s a b : List Char) (hne : sep ≠ [])
    (h1 : firstOcc sep s = some (a, b)) (h2 : firstOcc sep b = none) :
    pySplit sep s = [a, b] := by
  cases s with
  | nil => rw [fo_nil sep hne] at h1; exact absurd h1 (by simp)
  | cons c r =>
    unfold pySplit
    simp only [List.length_cons]
    rw [psf_some sep (c :: r) a b (r.length + 1) h1]
    rw [psf_none sep b h2]

theorem ps_three (sep s a b a2 b2 : List Char) (hne : sep ≠ [])
    (h1 : firstOcc sep s = some (a, b)) (h2 : firstOcc sep b = some (a2, b2))
    (h3 : firstOcc sep b2 = none) : pySplit sep s = [a, a2, b2] := by
  cases s with
  | nil => rw [fo_nil sep hne] at h1; exact absurd h1 (by simp)
  | cons c r =>
    unfold pySplit
    simp only [List.length_cons]
    rw [psf_some sep (c :: r) a b (r.length + 1) h1]
    rw [psf_some sep b a2 b2 r.length h2]
    rw [psf_none sep b2 h3]

/-! ## Concrete facts about the fence delimiters -/

theorem tb_ne : tb ≠ [] := by decide

theorem tbjson_ne : tbjson ≠ [] := by decide

theorem tbjson_eq : tbjson = tb ++ "json".data := rfl

theorem nl_notin_tb : nl ∉ tb := by decide

theorem nl_notin_tbjson : nl ∉ tbjson := by decide

theorem fo_tb_tb : firstOcc tb tb = some ([], []) := by decide

theorem fo_tbjson_tb : firstOcc tbjson tb = none := by decide

theorem fo_tbjson_tbnl : firstOcc tbjson (tb ++ [nl]) = none := by decide

theorem sw_tb_nl (s : List Char) : startsWithL tb (nl :: s) = false := rfl

theorem sw_tbjson_nl (s : List Char) : startsWithL tbjson (nl :: s) = false := rfl

/-! ## Evaluating `stripFencesL` on fence-wrapped and fence-free text -/

theorem strip_nofence (t : List Char) (h : firstOcc tb t = none) : stripFencesL t = t := by
  have h1 : containsL tbjson t = false := by
    rw [containsL, tbjson_eq, fo_mono_ext tb "json".data t h]; rfl
  have h2 : containsL tb t = false := by rw [containsL, h]; rfl
  rw [stripFencesL, h1, h2]

theorem strip_json_wrap (s : List Char) (h : firstOcc tb s = none) :
    stripFencesL (tbjson ++ (nl :: (s ++ [nl] ++ tb))) = nl :: (s ++ [nl]) := by
  have hSnl : firstOcc tb (s ++ [nl]) = none := fo_app_char tb nl tb_ne nl_notin_tb s h
  have hPiece : firstOcc tb (nl :: (s ++ [nl])) = none :=
    (fo_cons_none tb nl (s ++ [nl])).mpr ⟨sw_tb_nl _, hSnl⟩
  have hTbjS : firstOcc tbjson s = none := by
    rw [tbjson_eq]; exact fo_mono_ext tb "json".data s h
  have hTbjSnl : firstOcc tbjson (s ++ [nl]) = none :=
    fo_app_char tbjson nl tbjson_ne nl_notin_tbjson s hTbjS
  have hTbjBlock : firstOcc tbjson (s ++ [nl] ++ tb) = none := by
    rw [fo_app_blocked tbjson tb nl tbjson_ne nl_notin_tbjson s hTbjSnl, fo_tbjson_tb]
    rfl
  have hRestTbj : firstOcc tbjson (nl :: (s ++ [nl] ++ tb)) = none :=
    (fo_cons_none tbjson nl (s ++ [nl] ++ tb)).mpr ⟨sw_tbjson_nl _, hTbjBlock⟩
  have hRestTb : firstOcc tb (nl :: (s ++ [nl] ++ tb)) = some (nl :: (s ++ [nl]), []) := by
    have hb := fo_app_blocked tb tb nl tb_ne nl_notin_tb (nl :: s) (by simpa using hPiece)
    rw [fo_tb_tb] at hb
    simpa using hb
  have hcont : containsL tbjson (tbjson ++ (nl :: (s ++ [nl] ++ tb))) = true := by
    rw [containsL, fo_self_app tbjson _ tbjson_ne]; rfl
  rw [stripFencesL, hcont]
  rw [ps_two tbjson _ [] (nl :: (s ++ [nl] ++ tb)) tbjson_ne
    (fo_self_app tbjson _ tbjson_ne) hRestTbj]
  simp only [List.getD_cons_succ, List.getD_cons_zero]
  rw [ps_two tb _ (nl :: (s ++ [nl])) [] tb_ne hRestTb (fo_nil tb tb_ne)]
  simp only [List.getD_cons_zero]

theorem strip_plain_wrap (s : List Char) (h : firstOcc tb s = none) :
    stripFencesL (tb ++ (nl :: (s ++ [nl] ++ tb))) = nl :: (s ++ [nl]) := by
  have hSnl : firstOcc tb (s ++ [nl]) = none := fo_app_char tb nl tb_ne nl_notin_tb s h
  have hPiece : firstOcc tb (nl :: (s ++ [nl])) = none :=
    (fo_cons_none tb nl (s ++ [nl])).mpr ⟨sw_tb_nl _, hSnl⟩
  have hTbjS : firstOcc tbjson s = none := by
    rw [tbjson_eq]; exact fo_mono_ext tb "json".data s h
  have hTbjSnl : firstOcc tbjson (s ++ [nl]) = none :=
    fo_app_char tbjson nl tbjson_ne nl_notin_tbjson s hTbjS
  have hTbjBlock : firstOcc tbjson (s ++ [nl] ++ tb) = none := by
    rw [fo_app_blocked tbjson tb nl tbjson_ne nl_notin_tbjson s hTbjSnl, fo_tbjson_tb]
    rfl
  have hRestTb : firstOcc tb (nl :: (s ++ [nl] ++ tb)) = some (nl :: (s ++ [nl]), []) := by
    have hb := fo_app_blocked tb tb nl tb_ne nl_notin_tb (nl :: s) (by simpa using hPiece)
    rw [fo_tb_tb] at hb
    simpa using hb
  have hNoTbj : firstOcc tbjson (tb ++ (nl :: (s ++ [nl] ++ tb))) = none := by
    have hb := fo_app_blocked tbjson (s ++ [nl] ++ tb) nl tbjson_ne nl_notin_tbjson tb
      fo_tbjson_tbnl
    rw [hTbjBlock] at hb
    simpa using hb
  have hcont1 : containsL tbjson (tb ++ (nl :: (s ++ [nl] ++ tb))) = false := by
    rw [containsL, hNoTbj]; rfl
  have hcont2 : containsL tb (tb ++ (nl :: (s ++ [nl] ++ tb))) = true := by
    rw [containsL, fo_self_app tb _ tb_ne]; rfl
  rw [stripFencesL, hcont1, hcont2]
  rw [ps_three tb _ [] (nl :: (s ++ [nl] ++ tb)) (nl :: (s ++ [nl])) [] tb_ne
    (fo_self_app tb _ tb_ne) hRestTb (fo_nil tb tb_ne)]
  simp only [List.getD_cons_succ, List.getD_cons_zero]
  have hsingle : pySplit tb (nl :: (s ++ [nl])) = [nl :: (s ++ [nl])] :=
    psf_none tb _ hPiece _
  rw [hsingle]
  simp only [List.getD_cons_zero]

theorem trim_wrap (s : List Char) : trimL (nl :: (s ++ [nl])) = trimL s := by
  unfold trimL
  have h1 : List.dropWhile pyWs (nl :: (s ++ [nl])) = List.dropWhile pyWs (s ++ [nl]) := by
    simp [List.dropWhile_cons, pyWs, nl]
  rw [h1, List.dropWhile_append]
  cases hE : (List.dropWhile pyWs s).isEmpty with
  | true =>
    have hsE : List.dropWhile pyWs s = [] := by
      cases hdw : List.dropWhile pyWs s with
      | nil => rfl
      | cons a l => rw [hdw] at hE; simp at hE
    simp only [hsE]
    rfl
  | false =>
    simp only [Bool.false_eq_true, if_false]
    rw [List.reverse_append]
    simp only [List.reverse_cons, List.reverse_nil, List.nil_append, List.singleton_append]
    rw [List.dropWhile_cons]
    simp [pyWs, nl]

/-! ## Facts about the analysis engine -/

theorem analyze_eq_of_trim (t1 t2 : String)
    (h : trimL (stripFencesL t1.data) = trimL (stripFencesL t2.data)) :
    analyze_core t1 = analyze_core t2 := by
  unfold analyze_core
  rw [h]

/-- C7: a reasoning-service response consisting of a JSON object wrapped in a
fenced code block (either a ```json fence or a plain ``` fence, whose content
therefore holds no ``` of its own) is stripped and parsed identically to the
same content returned unwrapped, yielding the same SpecLocation.  Stated for
arbitrary fence content `s`, which covers the JSON objects of the claim. -/
theorem c7_fence_strip (s : String) (h : firstOcc tb s.data = none) :
    analyze_with_claude (Except.ok ("```json\n" ++ s ++ "\n```")) =
      analyze_with_claude (Except.ok s) ∧
    analyze_with_claude (Except.ok ("```\n" ++ s ++ "\n```")) =
      analyze_with_claude (Except.ok s) := by
  constructor
  · show analyze_core _ = analyze_core _
    apply analyze_eq_of_trim
    have hd : ("```json\n" ++ s ++ "\n```").data =
        tbjson ++ (nl :: (s.data ++ [nl] ++ tb)) := by
      rw [String.data_append, String.data_append]
      rw [show "```json\n".data = tbjson ++ [nl] from rfl]
      rw [show "\n```".data = nl :: tb from rfl]
      simp [List.append_assoc]
    rw [hd, strip_json_wrap s.data h, strip_nofence s.data h]
    exact trim_wrap s.data
  · show analyze_core _ = analyze_core _
    apply analyze_eq_of_trim
    have hd : ("```\n" ++ s ++ "\n```").data = tb ++ (nl :: (s.data ++ [nl] ++ tb)) := by
      rw [String.data_append, String.data_append]
      rw [show "```\n".data = tb ++ [nl] from rfl]
      rw [show "\n```".data = nl :: tb from rfl]
      simp [List.append_assoc]
    rw [hd, strip_plain_wrap s.data h, strip_nofence s.data h]
    exact trim_wrap s.data

/-- Witness for C7 at a concrete response. -/
theorem c7_witness :
    analyze_with_claude (Except.ok ("```json\n" ++ "\x7b\"confidence\": \"high\"\x7d" ++ "\n```")) =
      analyze_with_claude (Except.ok "\x7b\"confidence\": \"high\"\x7d") ∧
    analyze_with_claude (Except.ok ("```\n" ++ "\x7b\"confidence\": \"high\"\x7d" ++ "\n```")) =
      analyze_with_claude (Except.ok "\x7b\"confidence\": \"high\"\x7d") :=
  c7_fence_strip "\x7b\"confidence\": \"high\"\x7d" (by decide)

/-- C1 (amended): for every service response whose text reaches the parser
unmangled (it contains no ``` fence marker) and parses as a JSON object, each
SpecLocation field whose key is missing takes its documented default
(download_url → empty string, format → yaml, versioning_strategy → unknown,
confidence → low, reasoning → empty string, version/github_info → absent).
The enumerated-values half of the original claim is refuted by
`c1_enum_cex`: present fields are passed through without validation. -/
theorem c1_missing_defaults (r : String) (fs : List (String × Json))
    (hnf : firstOcc tb r.data = none)
    (hp : pyJsonLoads (trimL r.data) = some (Json.obj fs)) :
    (lookupPy fs "download_url" = none →
      (analyze_with_claude (Except.ok r)).download_url = Json.str "") ∧
    (lookupPy fs "version" = none →
      (analyze_with_claude (Except.ok r)).version = Json.null) ∧
    (lookupPy fs "format" = none →
      (analyze_with_claude (Except.ok r)).format = Json.str "yaml") ∧
    (lookupPy fs "versioning_strategy" = none →
      (analyze_with_claude (Except.ok r)).versioning_strategy = Json.str "unknown") ∧
    (lookupPy fs "github_info" = none →
      (analyze_with_claude (Except.ok r)).github_info = Json.null) ∧
    (lookupPy fs "confidence" = none →
      (analyze_with_claude (Except.ok r)).confidence = Json.str "low") ∧
    (lookupPy fs "reasoning" = none →
      (analyze_with_claude (Except.ok r)).reasoning = Json.str "") := by
  cases hsub : subscriptable (getPy fs "reasoning" (Json.str "N/A")) with
  | true =>
    have hcore : analyze_with_claude (Except.ok r) = specFromResult fs := by
      show analyze_core r = _
      unfold analyze_core
      rw [strip_nofence r.data hnf, hp]
      show (match subscriptable (getPy fs "reasoning" (Json.str "N/A")) with
        | true => specFromResult fs
        | false => fallbackSpec sliceErrMsg) = specFromResult fs
      rw [hsub]
    rw [hcore]
    refine ⟨fun h => ?_, fun h => ?_, fun h => ?_, fun h => ?_, fun h => ?_,
      fun h => ?_, fun h => ?_⟩ <;>
      simp [specFromResult, getPy, h]
  | false =>
    have hcore : analyze_with_claude (Except.ok r) = fallbackSpec sliceErrMsg := by
      show analyze_core r = _
      unfold analyze_core
      rw [strip_nofence r.data hnf, hp]
      show (match subscriptable (getPy fs "reasoning" (Json.str "N/A")) with
        | true => specFromResult fs
        | false => fallbackSpec sliceErrMsg) = fallbackSpec sliceErrMsg
      rw [hsub]
    rw [hcore]
    refine ⟨fun _ => rfl, fun _ => rfl, fun _ => rfl, fun _ => rfl, fun _ => rfl,
      fun _ => rfl, fun hre => ?_⟩
    exfalso
    rw [getPy, hre] at hsub
    simp [subscriptable] at hsub

/-- Counterexample for C1 as stated: an object response whose format field
holds the string xml parses
as a JSON object, yet the returned `format` is `xml`, which is neither of the
enumerated values `yaml`/`json` - the engine performs no enum validation. -/
theorem c1_enum_cex :
    pyJsonLoads (trimL (stripFencesL "\x7b\"format\": \"xml\"\x7d".data)) =
      some (Json.obj [("format", Json.str "xml")]) ∧
    (analyze_with_claude (Except.ok "\x7b\"format\": \"xml\"\x7d")).format = Json.str "xml" ∧
    Json.str "xml" ≠ Json.str "yaml" ∧ Json.str "xml" ≠ Json.str "json" := by
  refine ⟨rfl, rfl, fun h => ?_, fun h => ?_⟩
  · injection h with h2
    exact absurd h2 (by decide)
  · injection h with h2
    exact absurd h2 (by decide)

/-- Witness for C1 at the empty-object response: all keys missing, all
defaults delivered. -/
theorem c1_witness :
    (analyze_with_claude (Except.ok "\x7b\x7d")).download_url = Json.str "" ∧
    (analyze_with_claude (Except.ok "\x7b\x7d")).format = Json.str "yaml" ∧
    (analyze_with_claude (Except.ok "\x7b\x7d")).versioning_strategy = Json.str "unknown" ∧
    (analyze_with_claude (Except.ok "\x7b\x7d")).confidence = Json.str "low" ∧
    (analyze_with_claude (Except.ok "\x7b\x7d")).version = Json.null ∧
    (analyze_with_claude (Except.ok "\x7b\x7d")).github_info = Json.null ∧
    (analyze_with_claude (Except.ok "\x7b\x7d")).reasoning = Json.str "" := by
  have h := c1_missing_defaults "\x7b\x7d" [] (by decide) rfl
  exact ⟨h.1 rfl, h.2.2.1 rfl, h.2.2.2.1 rfl, h.2.2.2.2.2.1 rfl, h.2.1 rfl,
    h.2.2.2.2.1 rfl, h.2.2.2.2.2.2 rfl⟩

/-- C2 (amended): `github_info` is copied verbatim from the service response
with no validation; when the response supplies it, the SpecLocation carries
exactly that value, whatever shape it has.  The original invariant
(owner/repo/path all present and non-empty) is refuted by `c2_github_cex`. -/
theorem c2_github_passthrough (r : String) (fs : List (String × Json)) (v : Json)
    (hnf : firstOcc tb r.data = none)
    (hp : pyJsonLoads (trimL r.data) = some (Json.obj fs))
    (hsub : subscriptable (getPy fs "reasoning" (Json.str "N/A")) = true)
    (hg : lookupPy fs "github_info" = some v) :
    (analyze_with_claude (Except.ok r)).github_info = v := by
  have hcore : analyze_with_claude (Except.ok r) = specFromResult fs := by
    show analyze_core r = _
    unfold analyze_core
    rw [strip_nofence r.data hnf, hp]
    show (match subscriptable (getPy fs "reasoning" (Json.str "N/A")) with
      | true => specFromResult fs
      | false => fallbackSpec sliceErrMsg) = specFromResult fs
    rw [hsub]
  rw [hcore]
  simp [specFromResult, getPy, hg]

/-- Counterexample for C2 as stated: the response supplies
a github_info object holding only an empty owner; the returned
`github_info` is present (not the
absent value `null`) yet has no `repo`, no `path`, and an empty `owner`. -/
theorem c2_github_cex :
    (analyze_with_claude (Except.ok "\x7b\"github_info\": \x7b\"owner\": \"\"\x7d\x7d")).github_info
      = Json.obj [("owner", Json.str "")] ∧
    (analyze_with_claude (Except.ok "\x7b\"github_info\": \x7b\"owner\": \"\"\x7d\x7d")).github_info
      ≠ Json.null ∧
    lookupPy [("owner", Json.str "")] "repo" = none ∧
    lookupPy [("owner", Json.str "")] "path" = none ∧
    lookupPy [("owner", Json.str "")] "owner" = some (Json.str "") := by
  refine ⟨rfl, fun h => ?_, rfl, rfl, rfl⟩
  have h2 : Json.obj [("owner", Json.str "")] = Json.null :=
    (rfl :
      (analyze_with_claude
        (Except.ok "\x7b\"github_info\": \x7b\"owner\": \"\"\x7d\x7d")).github_info
        = Json.obj [("owner", Json.str "")]).symm.trans h
  exact Json.noConfusion h2

/-- Witness for C2 at a fully-populated `github_info`. -/
theorem c2_witness :
    (analyze_with_claude (Except.ok
        "\x7b\"github_info\": \x7b\"owner\": \"acme\", \"repo\": \"oai\", \"path\": \"openapi.yaml\"\x7d\x7d")).github_info
      = Json.obj [("owner", Json.str "acme"), ("repo", Json.str "oai"),
          ("path", Json.str "openapi.yaml")] :=
  c2_github_passthrough _
    [("github_info", Json.obj [("owner", Json.str "acme"), ("repo", Json.str "oai"),
      ("path", Json.str "openapi.yaml")])]
    _ (by decide) rfl rfl rfl

/-- C3: every exception during the reasoning-service call or the handling of
its response is caught and converted to the fallback SpecLocation with empty
download_url, confidence `low`, and a reasoning string describing the error;
`analyze` is a total function and never raises.  The four caught situations
are: a service-call exception, a JSON parse failure, a non-object parse
result (`.get` raises AttributeError), and an unsliceable `reasoning` value
(the line-175 logging slice raises TypeError). -/
theorem c3_never_raises (e : String) (r : String) :
    analyze_with_claude (Except.error e) = fallbackSpec e ∧
    (fallbackSpec e).download_url = Json.str "" ∧
    (fallbackSpec e).confidence = Json.str "low" ∧
    (fallbackSpec e).reasoning = Json.str ("Error during analysis: " ++ e) ∧
    (pyJsonLoads (trimL (stripFencesL r.data)) = none →
      analyze_with_claude (Except.ok r) = fallbackSpec decodeErrMsg) ∧
    (∀ j : Json, pyJsonLoads (trimL (stripFencesL r.data)) = some j →
      (∀ gs : List (String × Json), j ≠ Json.obj gs) →
      analyze_with_claude (Except.ok r) = fallbackSpec notDictErrMsg) ∧
    (∀ gs : List (String × Json),
      pyJsonLoads (trimL (stripFencesL r.data)) = some (Json.obj gs) →
      subscriptable (getPy gs "reasoning" (Json.str "N/A")) = false →
      analyze_with_claude (Except.ok r) = fallbackSpec sliceErrMsg) := by
  refine ⟨rfl, rfl, rfl, rfl, fun hp => ?_, fun j hj hno => ?_, fun gs hp hsub => ?_⟩
  · show analyze_core r = _
    unfold analyze_core
    rw [hp]
  · cases j with
    | obj gs => exact absurd rfl (hno gs)
    | null => show analyze_core r = _; unfold analyze_core; rw [hj]
    | bool b => show analyze_core r = _; unfold analyze_core; rw [hj]
    | num n => show analyze_core r = _; unfold analyze_core; rw [hj]
    | str s => show analyze_core r = _; unfold analyze_core; rw [hj]
    | arr xs => show analyze_core r = _; unfold analyze_core; rw [hj]
  · show analyze_core r = _
    unfold analyze_core
    rw [hp]
    show (match subscriptable (getPy gs "reasoning" (Json.str "N/A")) with
      | true => specFromResult gs
      | false => fallbackSpec sliceErrMsg) = fallbackSpec sliceErrMsg
    rw [hsub]

/-- Witness for C3 at concrete failing inputs of every kind. -/
theorem c3_witness :
    analyze_with_claude (Except.error "boom") = fallbackSpec "boom" ∧
    analyze_with_claude (Except.ok "no json here") = fallbackSpec decodeErrMsg ∧
    analyze_with_claude (Except.ok "[1]") = fallbackSpec notDictErrMsg ∧
    analyze_with_claude (Except.ok "\x7b\"reasoning\": 42\x7d") = fallbackSpec sliceErrMsg := by
  refine ⟨(c3_never_raises "boom" "no json here").1,
    (c3_never_raises "boom" "no json here").2.2.2.2.1 rfl,
    (c3_never_raises "boom" "[1]").2.2.2.2.2.1 (Json.arr [Json.num 1]) rfl
      (fun gs h => Json.noConfusion h),
    (c3_never_raises "boom" "\x7b\"reasoning\": 42\x7d").2.2.2.2.2.2
      [("reasoning", Json.num 42)] rfl rfl⟩

/-- C5 (amended): when the reasoning service returns well-formed JSON holding
all seven fields, the returned SpecLocation's fields exactly equal the parsed
values, provided the response text carries no ``` fence marker (the engine
splits on fences before parsing, mangling JSON that contains one - see
`c5_fence_cex`) and the `reasoning` value is sliceable (a string or array;
any other type makes the logging slice on line 175 raise, degrading to the
fallback). -/
theorem c5_identity (r : String) (fs : List (String × Json))
    (du v f vs gi c rs : Json)
    (hnf : firstOcc tb r.data = none)
    (hp : pyJsonLoads (trimL r.data) = some (Json.obj fs))
    (h1 : lookupPy fs "download_url" = some du)
    (h2 : lookupPy fs "version" = some v)
    (h3 : lookupPy fs "format" = some f)
    (h4 : lookupPy fs "versioning_strategy" = some vs)
    (h5 : lookupPy fs "github_info" = some gi)
    (h6 : lookupPy fs "confidence" = some c)
    (h7 : lookupPy fs "reasoning" = some rs)
    (hsub : subscriptable rs = true) :
    analyze_with_claude (Except.ok r) = SpecLocation.mk du v f vs gi c rs := by
  have hs : subscriptable (getPy fs "reasoning" (Json.str "N/A")) = true := by
    rw [getPy, h7]
    exact hsub
  show analyze_core r = _
  unfold analyze_core
  rw [strip_nofence r.data hnf, hp]
  show (match subscriptable (getPy fs "reasoning" (Json.str "N/A")) with
    | true => specFromResult fs
    | false => fallbackSpec sliceErrMsg) = SpecLocation.mk du v f vs gi c rs
  rw [hs]
  show specFromResult fs = SpecLocation.mk du v f vs gi c rs
  simp [specFromResult, getPy, h1, h2, h3, h4, h5, h6, h7]

set_option maxRecDepth 40000

/-- Counterexample for C5 as stated: a well-formed JSON response holding all
seven fields whose `reasoning` string mentions a ``` fence.  The engine
splits the raw text on ``` before parsing, so the parse fails and the
fallback is returned instead of the parsed values. -/
theorem c5_fence_cex :
    pyJsonLoads (trimL ("\x7b\"download_url\": \"u\", \"version\": null, \"format\": \"json\", \"versioning_strategy\": \"in-spec\", \"github_info\": null, \"confidence\": \"high\", \"reasoning\": \"use ``` here\"\x7d").data) =
      some (Json.obj [("download_url", Json.str "u"), ("version", Json.null),
        ("format", Json.str "json"), ("versioning_strategy", Json.str "in-spec"),
        ("github_info", Json.null), ("confidence", Json.str "high"),
        ("reasoning", Json.str "use ``` here")]) ∧
    analyze_with_claude (Except.ok "\x7b\"download_url\": \"u\", \"version\": null, \"format\": \"json\", \"versioning_strategy\": \"in-spec\", \"github_info\": null, \"confidence\": \"high\", \"reasoning\": \"use ``` here\"\x7d") =
      fallbackSpec decodeErrMsg ∧
    (fallbackSpec decodeErrMsg).download_url ≠ Json.str "u" := by
  refine ⟨rfl, rfl, fun h => ?_⟩
  injection h with h2
  exact absurd h2 (by decide)

/-- Witness for C5 at a complete, fence-free response. -/
theorem c5_witness :
    analyze_with_claude (Except.ok "\x7b\"download_url\": \"https://e.x/o.yaml\", \"version\": \"1\", \"format\": \"json\", \"versioning_strategy\": \"in-spec\", \"github_info\": null, \"confidence\": \"high\", \"reasoning\": \"found\"\x7d") =
      SpecLocation.mk (Json.str "https://e.x/o.yaml") (Json.str "1") (Json.str "json")
        (Json.str "in-spec") Json.null (Json.str "high") (Json.str "found") :=
  c5_identity _
    [("download_url", Json.str "https://e.x/o.yaml"), ("version", Json.str "1"),
     ("format", Json.str "json"), ("versioning_strategy", Json.str "in-spec"),
     ("github_info", Json.null), ("confidence", Json.str "high"),
     ("reasoning", Json.str "found")]
    _ _ _ _ _ _ _ (by decide) rfl rfl rfl rfl rfl rfl rfl rfl rfl

/-- C4 (amended): verification returns false immediately when the HEAD
probe's status is not exactly 200 (the code tests `status_code == 200`, not
membership in the 2xx success class - see `c4_success_cex`); on status 200 it
performs the full retrieval and returns true exactly when the lower-cased
body contains one of the four marker substrings; any exception during either
request yields false rather than propagating. -/
theorem c4_verify_amended (head : Except String Nat) (get : Except String (Nat × String)) :
    (∀ e : String, head = Except.error e → verify_spec_url head get = false) ∧
    (∀ s : Nat, head = Except.ok s → s ≠ 200 → verify_spec_url head get = false) ∧
    (∀ e : String, head = Except.ok 200 → get = Except.error e →
      verify_spec_url head get = false) ∧
    (∀ (s : Nat) (body : String), head = Except.ok 200 → get = Except.ok (s, body) →
      verify_spec_url head get = hasOpenapiMarker body) := by
  refine ⟨fun e he => ?_, fun s hs hne => ?_, fun e h1 h2 => ?_, fun s body h1 h2 => ?_⟩
  · rw [he]; rfl
  · rw [hs]
    show (match s == 200 with
      | true =>
        match get with
        | Except.error _ => false
        | Except.ok (_, body) => hasOpenapiMarker body
      | false => false) = false
    rw [beq_eq_false_iff_ne.mpr hne]
  · rw [h1, h2]; rfl
  · rw [h1, h2]; rfl

/-- Counterexample for C4 as stated: status 201 is a success status
(2xx) and the body carries a marker, so the claim requires `true`, but the
test `== 200` in the code makes verification return `false`. -/
theorem c4_success_cex :
    verify_spec_url (Except.ok 201) (Except.ok (200, "openapi: 3.0.0")) = false ∧
    200 ≤ 201 ∧ 201 < 300 ∧
    hasOpenapiMarker "openapi: 3.0.0" = true :=
  ⟨rfl, by decide, by decide, rfl⟩

/-- Witness for C4 covering all four branches at concrete inputs. -/
theorem c4_witness :
    verify_spec_url (Except.error "timeout") (Except.ok (200, "x")) = false ∧
    verify_spec_url (Except.ok 404) (Except.ok (200, "openapi: 3")) = false ∧
    verify_spec_url (Except.ok 200) (Except.error "reset") = false ∧
    verify_spec_url (Except.ok 200) (Except.ok (200, "swagger: 2.0")) =
      hasOpenapiMarker "swagger: 2.0" :=
  ⟨(c4_verify_amended _ _).1 "timeout" rfl,
   (c4_verify_amended _ _).2.1 404 rfl (by decide),
   (c4_verify_amended _ _).2.2.1 "reset" rfl rfl,
   (c4_verify_amended _ _).2.2.2 200 "swagger: 2.0" rfl rfl⟩

/-- C6 (amended): fetching returns the body truncated to at most 100000
characters on success; any raised exception (timeout, DNS, connection error)
or an HTTP error status in 400-599 (the statuses `raise_for_status` raises
for) yields the empty string.  A non-2xx status outside that range (e.g. a
304 left after redirect handling) does not raise, so the body is returned -
see `c6_status_cex`, refuting the original "any non-2xx status" wording. -/
theorem c6_fetch_amended (out : Except String (Nat × String)) :
    (∀ e : String, out = Except.error e → fetch_documentation out = "") ∧
    (∀ (s : Nat) (b : String), out = Except.ok (s, b) → 400 ≤ s → s < 600 →
      fetch_documentation out = "") ∧
    (∀ (s : Nat) (b : String), out = Except.ok (s, b) → s < 400 ∨ 600 ≤ s →
      fetch_documentation out = pyTake b 100000 ∧
        (fetch_documentation out).length ≤ 100000) := by
  refine ⟨fun e he => ?_, fun s b ho h4 h6 => ?_, fun s b ho hor => ?_⟩
  · rw [he]; rfl
  · rw [ho]
    show (if 400 ≤ s ∧ s < 600 then "" else pyTake b 100000) = ""
    rw [if_pos ⟨h4, h6⟩]
  · rw [ho]
    have hneg : ¬(400 ≤ s ∧ s < 600) := by omega
    constructor
    · show (if 400 ≤ s ∧ s < 600 then "" else pyTake b 100000) = pyTake b 100000
      rw [if_neg hneg]
    · show (if 400 ≤ s ∧ s < 600 then "" else pyTake b 100000).length ≤ 100000
      rw [if_neg hneg]
      show (b.data.take 100000).length ≤ 100000
      exact le_trans (Nat.le_of_eq (List.length_take 100000 b.data))
        (Nat.min_le_left 100000 b.data.length)

/-- Counterexample for C6 as stated: a 304 response is a non-2xx status, yet
`raise_for_status` does not raise for it, so fetch returns the body rather
than the empty string the claim requires. -/
theorem c6_status_cex :
    fetch_documentation (Except.ok (304, "cached")) = "cached" ∧
    ¬(200 ≤ 304 ∧ 304 < 300) ∧
    "cached" ≠ "" := by
  refine ⟨?_, by decide, by decide⟩
  show (if 400 ≤ 304 ∧ 304 < 600 then "" else pyTake "cached" 100000) = "cached"
  rw [if_neg (by omega)]
  rfl

/-- Witness for C6 covering the three branches at concrete inputs. -/
theorem c6_witness :
    fetch_documentation (Except.error "dns failure") = "" ∧
    fetch_documentation (Except.ok (404, "not found page")) = "" ∧
    fetch_documentation (Except.ok (200, "<html>docs</html>")) =
      pyTake "<html>docs</html>" 100000 ∧
    (fetch_documentation (Except.ok (200, "<html>docs</html>"))).length ≤ 100000 :=
  ⟨(c6_fetch_amended _).1 "dns failure" rfl,
   (c6_fetch_amended _).2.1 404 "not found page" rfl (by decide) (by decide),
   ((c6_fetch_amended _).2.2 200 "<html>docs</html>" rfl (Or.inl (by decide))).1,
   ((c6_fetch_amended _).2.2 200 "<html>docs</html>" rfl (Or.inl (by decide))).2⟩

/-- C8: a discovery request body missing any of the required fields `vendor`,
`api_name`, `documentation_url` receives a 400 client error naming a missing
field, and the response is the same whatever the discovery agent would have
returned - the agent (fetch and analysis) is never invoked. -/
theorem c8_missing_field (fields : List (String × Json)) (agent : Except String SpecLocation)
    (h : ∃ k ∈ requiredFields, lookupPy fields k = none) :
    (discover_spec fields agent).1 = 400 ∧
    (∃ k, k ∈ requiredFields ∧ lookupPy fields k = none ∧
      (discover_spec fields agent).2 =
        Json.obj [("error", Json.str ("Missing required field: " ++ k))]) ∧
    (∀ agent2 : Except String SpecLocation,
      discover_spec fields agent2 = discover_spec fields agent) := by
  have hfm : ∃ k0, firstMissing fields = some k0 := by
    rcases h with ⟨k, hk, hnone⟩
    cases hf : firstMissing fields with
    | some k0 => exact ⟨k0, rfl⟩
    | none =>
      exfalso
      have hall := List.find?_eq_none.mp hf k hk
      rw [hnone] at hall
      exact hall rfl
  rcases hfm with ⟨k0, hk0⟩
  have hk0f : requiredFields.find? (fun k => (lookupPy fields k).isNone) = some k0 := hk0
  have hmem : k0 ∈ requiredFields := List.mem_of_find?_eq_some hk0f
  have hp0 : (lookupPy fields k0).isNone = true := by simpa using List.find?_some hk0f
  have hnone0 : lookupPy fields k0 = none := Option.isNone_iff_eq_none.mp hp0
  refine ⟨?_, ⟨k0, hmem, hnone0, ?_⟩, fun agent2 => ?_⟩
  · unfold discover_spec
    rw [hk0]
  · unfold discover_spec
    rw [hk0]
  · unfold discover_spec
    rw [hk0]

/-- Witness for C8: a body holding only `vendor` is rejected with a 400
naming `api_name`, for both possible agent outcomes. -/
theorem c8_witness :
    (discover_spec [("vendor", Json.str "acme")] (Except.error "unused")).1 = 400 ∧
    (discover_spec [("vendor", Json.str "acme")] (Except.error "unused")).2 =
      Json.obj [("error", Json.str ("Missing required field: " ++ "api_name"))] ∧
    discover_spec [("vendor", Json.str "acme")] (Except.ok (fallbackSpec "unused")) =
      discover_spec [("vendor", Json.str "acme")] (Except.error "unused") := by
  have h := c8_missing_field [("vendor", Json.str "acme")] (Except.error "unused")
    ⟨"api_name", by decide, rfl⟩
  exact ⟨h.1, rfl, h.2.2 (Except.ok (fallbackSpec "unused"))⟩

/-- C9 (amended): the two-marker scan implies the four-marker scan (its two
markers are among the four), but the converse direction claimed is false:
`"openapi":` does not contain `openapi:` as a substring (the closing quote
sits between `openapi` and the colon), so a body can pass the four-marker
check while failing the two-marker check - see `c9_marker_cex`. -/
theorem c9_marker_implication (body : String) (h : twoMarkerCheck body = true) :
    hasOpenapiMarker body = true := by
  simp only [twoMarkerCheck, Bool.or_eq_true] at h
  simp only [hasOpenapiMarker, Bool.or_eq_true]
  rcases h with h | h
  · exact Or.inl (Or.inr h)
  · exact Or.inr h

/-- Counterexample for C9 as stated: a JSON body with a quoted openapi key
passes
the four-marker check but not the claimed equivalent two-marker check, and
neither quoted marker contains `openapi:` as a substring. -/
theorem c9_marker_cex :
    hasOpenapiMarker "\x7b\"openapi\": \"3.0.0\"\x7d" = true ∧
    twoMarkerCheck "\x7b\"openapi\": \"3.0.0\"\x7d" = false ∧
    firstOcc m3 m1 = none ∧
    firstOcc m3 m2 = none :=
  ⟨rfl, rfl, by decide, by decide⟩

/-- Witness for C9 at a body containing `swagger:`. -/
theorem c9_witness : hasOpenapiMarker "swagger: 2.0" = true :=
  c9_marker_implication "swagger: 2.0" rfl

/-- C10: the status of the second, full retrieval is never examined - once
the HEAD probe reports 200, the marker scan runs on whatever body the GET
returned, so the result is independent of the GET status, and an error page
served with any status but containing a marker substring verifies as true. -/
theorem c10_get_status_ignored (gs gs2 : Nat) (body : String) :
    verify_spec_url (Except.ok 200) (Except.ok (gs, body)) =
      verify_spec_url (Except.ok 200) (Except.ok (gs2, body)) ∧
    (hasOpenapiMarker body = true →
      verify_spec_url (Except.ok 200) (Except.ok (gs, body)) = true) := by
  exact ⟨rfl, fun h => h⟩

/-- Witness for C10: a 500 error page leaking a marker still verifies. -/
theorem c10_witness :
    verify_spec_url (Except.ok 200)
      (Except.ok (500, "<html>Server Error</html> openapi: leaked")) = true :=
  (c10_get_status_ignored 500 404 "<html>Server Error</html> openapi: leaked").2 rfl
